import Mathlib

/-!
Shallow embedding of `src/main.py` (openrouter-free-api).

The script scrapes model rows from a rendered web table, normalizes them with
`validate_and_clean_models`, writes them to a record file, fetches a JSON API
payload with `fetch_openrouter_api_models`, and conditionally writes that
payload to a second file.  The pure normalizer is embedded directly; the
effectful `main` and fetcher are embedded as functions over an explicit
environment describing the outcomes of the external effects (browser
connection, navigation, page content, filesystem writes), with the JSON parse
step abstracted as a `String → Option Json` parameter.
-/

namespace OpenRouterFree

/-- Loosely typed Python values that can occur as fields of a raw scraped row
(the rows come from an in-page JavaScript evaluation, so nothing guarantees
they are strings). -/
inductive PyVal where
| str (s : String)
| int (n : Int)
| noneV
deriving DecidableEq, Repr

/-- One raw row as handed to `validate_and_clean_models`: a Python dict whose
`model` / `id` / `context` keys may each be absent (`Option.none`) or bound to
a loosely typed value. -/
structure RawRow where
  model : Option PyVal
  id : Option PyVal
  context : Option PyVal
deriving DecidableEq, Repr

/-- An element of the input list: either a dict-shaped row or any non-dict
value (the code skips the latter with `isinstance(model, dict)`). -/
inductive RawItem where
| dict (row : RawRow)
| nondict
deriving DecidableEq, Repr

/-- A cleaned model record `{model, id, context}` as emitted by
`validate_and_clean_models` and serialized to the record file. -/
structure ModelRecord where
  model : String
  id : String
  context : String
deriving DecidableEq, Repr

/-- Python `str.strip()`: remove leading and trailing whitespace. -/
def pyStrip (s : String) : String :=
  String.mk (((s.data.dropWhile Char.isWhitespace).reverse.dropWhile Char.isWhitespace).reverse)

/-- Python `str.lower()`: lowercase each character. -/
def pyLower (s : String) : String :=
  String.mk (s.data.map Char.toLower)

/-- Python `str(v)` on a field value. -/
def pyStr : PyVal → String
| .str s => s
| .int n => toString n
| .noneV => "None"

/-- Python `v.strip()` on a field value: defined only on strings; on any other
value the attribute lookup raises (modelled as `Except.error`). -/
def stripVal : PyVal → Except Unit String
| .str s => .ok (pyStrip s)
| _ => .error ()

/-- First maximal run of consecutive digits in a character list, as matched by
`re.search(r'(\d+)', s).group(1)`. -/
def firstDigitRun (l : List Char) : List Char :=
  (l.dropWhile (fun c => !c.isDigit)).takeWhile Char.isDigit

/-- Model of `re.search(r'(\d+)', s)`: `some` of the first digit run when the
string contains a digit, `none` otherwise. -/
def searchDigits (s : String) : Option String :=
  if s.data.any Char.isDigit then some (String.mk (firstDigitRun s.data)) else Option.none

/-- Context cleanup from `validate_and_clean_models` (src/main.py lines
248-256): `context = str(model.get("context", "")).strip()`, then if non-empty
replace it by the first digit run, or by `""` when no digit occurs. -/
def cleanContext (v : PyVal) : String :=
  let context := pyStrip (pyStr v)
  if context = "" then context
  else
    match searchDigits context with
    | some d => d
    | Option.none => ""

/-- Dedup key of an emitted record: lowercased `id` when non-empty, else the
lowercased display name (mirrors `(model_id or model_name).lower()`). -/
def ModelRecord.key (r : ModelRecord) : String :=
  pyLower (if r.id ≠ "" then r.id else r.model)

/-- Loop body of `validate_and_clean_models` (src/main.py lines 228-264),
processing the list of rows front to back while threading the `seen_models`
set (as a list of keys).  `Except.error` models an uncaught Python exception
from calling `.strip()` on a non-string field. -/
def validateGo : List RawItem → List String → Except Unit (List ModelRecord)
| [], _seen => .ok []
| RawItem.nondict :: rest, seen => validateGo rest seen
| RawItem.dict row :: rest, seen =>
  match stripVal (row.model.getD (PyVal.str "")), stripVal (row.id.getD (PyVal.str "")) with
  | .error e, _ => .error e
  | .ok _, .error e => .error e
  | .ok model_name, .ok model_id =>
    if model_name = "" ∧ model_id = "" then
      validateGo rest seen
    else
      let model_key := pyLower (if model_id ≠ "" then model_id else model_name)
      if model_key = "" ∨ model_key ∈ seen then
        validateGo rest seen
      else
        match validateGo rest (model_key :: seen) with
        | .error e => .error e
        | .ok out =>
          .ok ({ model := if model_name ≠ "" then model_name else model_id,
                 id := model_id,
                 context := cleanContext (row.context.getD (PyVal.str "")) } :: out)

/-- The normalizer `validate_and_clean_models` (src/main.py lines 218-264). -/
def validate_and_clean_models (models : List RawItem) : Except Unit (List ModelRecord) :=
  validateGo models []

/-- Per-row validation and cleanup without the dedup check: `Except.error` when
a `.strip()` call raises, `.ok Option.none` when the row is skipped (non-dict,
or both name and id empty), `.ok (some r)` with the cleaned record otherwise.
This is the loop body of `validate_and_clean_models` minus the `seen_models`
logic, used to state refinement properties. -/
def cleanItem : RawItem → Except Unit (Option ModelRecord)
| RawItem.nondict => .ok Option.none
| RawItem.dict row =>
  match stripVal (row.model.getD (PyVal.str "")), stripVal (row.id.getD (PyVal.str "")) with
  | .error e, _ => .error e
  | .ok _, .error e => .error e
  | .ok model_name, .ok model_id =>
    if model_name = "" ∧ model_id = "" then
      .ok Option.none
    else
      .ok (some { model := if model_name ≠ "" then model_name else model_id,
                  id := model_id,
                  context := cleanContext (row.context.getD (PyVal.str "")) })

/-- All rows that survive per-row validation, cleaned but not deduplicated. -/
def validRows : List RawItem → Except Unit (List ModelRecord)
| [] => .ok []
| item :: rest =>
  match cleanItem item with
  | .error e => .error e
  | .ok o =>
    match validRows rest with
    | .error e => .error e
    | .ok out =>
      match o with
      | some r => .ok (r :: out)
      | Option.none => .ok out

/-- Modelled from the spec: first-occurrence-wins deduplication by record key,
preserving order of first appearance ("skips rows whose key was already seen,
order of first appearance preserved"). -/
def dedupByKey : List ModelRecord → List String → List ModelRecord
| [], _ => []
| r :: rs, seen =>
  if r.key ∈ seen then dedupByKey rs seen
  else r :: dedupByKey rs (r.key :: seen)

/-- JSON values, for the API payload parsed by `json.loads`. -/
inductive Json where
| null
| boolVal (b : Bool)
| num (n : Int)
| str (s : String)
| arr (elems : List Json)
| obj (fields : List (String × Json))
deriving Repr

/-- Python truthiness of a JSON value (`if api_models:`): empty dict, empty
list, empty string, zero and `None`/`False` are falsy. -/
def jsonTruthy : Json → Bool
| .null => false
| .boolVal b => b
| .num n => n != 0
| .str s => s != ""
| .arr l => !l.isEmpty
| .obj f => !f.isEmpty

/-- Python `d.get(key, default)`: raises (`Except.error`) when the receiver is
not a dict. -/
def pyGet (j : Json) (key : String) (default : Json) : Except Unit Json :=
  match j with
  | .obj fields =>
    match fields.lookup key with
    | some v => .ok v
    | Option.none => .ok default
  | _ => .error ()

/-- Python `len(v)` on a JSON value: defined on lists, strings and dicts,
raises otherwise. -/
def pyLen : Json → Except Unit Nat
| .arr l => .ok l.length
| .str s => .ok s.length
| .obj f => .ok f.length
| _ => .error ()

/-- Environment of external effects for one run of
`fetch_openrouter_api_models`: whether `connect_to_browser` produced a usable
page, whether `page.goto` on the API URL succeeded, and the text content read
from the rendered page (`Option.none` models a null result). -/
structure FetchEnv where
  connectOk : Bool
  navOk : Bool
  content : Option String
deriving DecidableEq, Repr

/-- The fetcher `fetch_openrouter_api_models` (src/main.py lines 267-317),
with `json.loads` abstracted as `parse` (returning `Option.none` on a
`JSONDecodeError`).  Every failure path — no browser, navigation error caught
by the outer handler, falsy content, parse failure — returns the empty dict. -/
def fetch_openrouter_api_models (parse : String → Option Json) (env : FetchEnv) : Json :=
  if !env.connectOk then .obj []
  else if !env.navOk then .obj []
  else
    match env.content with
    | Option.none => .obj []
    | some c =>
      if c = "" then .obj []
      else
        match parse c with
        | some api_data => api_data
        | Option.none => .obj []

/-- Environment of external effects for one run of `main`: the scraper's
result, and the success of the directory creation and of the two file
writes. -/
structure MainEnv where
  scraped : List ModelRecord
  mkdirOk : Bool
  write1Ok : Bool
  fetchEnv : FetchEnv
  write2Ok : Bool
deriving DecidableEq, Repr

/-- Observable outcome of one run of `main`: the process exit code, whether
each output file was successfully written, whether the API fetch was invoked,
and the API-model count logged by the summary (`Option.none` when no count is
logged). -/
structure MainResult where
  exitCode : Nat
  wroteFile1 : Bool
  fetchAttempted : Bool
  wroteFile2 : Bool
  apiCountLogged : Option Nat
deriving DecidableEq, Repr

/-- The entry point `main` (src/main.py lines 320-395).  Zero scraped records
exit with code 1 before any write or fetch; a failure of `os.makedirs` or of
the record-file write exits with code 1; the API payload is fetched next and
written only when truthy, with any exception in that block (write failure,
`.get` on a non-dict, `len` of an unsized value) merely logged; the run then
ends with exit code 0. -/
def main (parse : String → Option Json) (env : MainEnv) : MainResult :=
  let models := env.scraped
  if models.isEmpty then
    ⟨1, false, false, false, Option.none⟩
  else if !env.mkdirOk then
    ⟨1, false, false, false, Option.none⟩
  else if !env.write1Ok then
    ⟨1, false, false, false, Option.none⟩
  else
    let api_models := fetch_openrouter_api_models parse env.fetchEnv
    if jsonTruthy api_models then
      if !env.write2Ok then
        ⟨0, true, true, false, Option.none⟩
      else
        match pyGet api_models "data" (Json.arr []) with
        | .error _ => ⟨0, true, true, true, Option.none⟩
        | .ok data_list =>
          match pyLen data_list with
          | .error _ => ⟨0, true, true, true, Option.none⟩
          | .ok n => ⟨0, true, true, true, some n⟩
    else
      ⟨0, true, true, false, Option.none⟩

/-- Re-embedding of an emitted record as a raw row, for stating idempotence of
the normalizer: each field becomes the corresponding string value of a dict. -/
def recordToItem (r : ModelRecord) : RawItem :=
  RawItem.dict ⟨some (PyVal.str r.model), some (PyVal.str r.id), some (PyVal.str r.context)⟩

/-- Canonical-record invariant: holds of every record emitted by the
normalizer, and sufficient for a record to survive re-normalization
unchanged. -/
def Canon (r : ModelRecord) : Prop :=
  pyStrip r.model = r.model ∧ r.model ≠ "" ∧ pyStrip r.id = r.id
    ∧ ∀ c ∈ r.context.data, c.isDigit = true

deriving instance DecidableEq for Except

/-- Helper: the head of `dropWhile p l` does not satisfy `p`. -/
theorem head?_dropWhile_eq_false {α : Type} (p : α → Bool) :
    ∀ (l : List α) (c : α), (l.dropWhile p).head? = some c → p c = false := by
  intro l
  induction l with
  | nil => intro c h; simp [List.dropWhile] at h
  | cons a t ih =>
    intro c h
    by_cases hp : p a
    · simp only [List.dropWhile, hp] at h
      exact ih c h
    · simp only [List.dropWhile, hp] at h
      simp only [List.head?] at h
      cases h
      exact Bool.eq_false_iff.mpr hp

/-- Helper: a list containing a digit has a digit at the head of its
non-digit-prefix drop. -/
theorem dropWhile_head_digit (l : List Char) (h : l.any Char.isDigit = true) :
    ∃ c t, l.dropWhile (fun c => !c.isDigit) = c :: t ∧ c.isDigit = true := by
  cases hd : l.dropWhile (fun c => !c.isDigit) with
  | nil =>
    rw [List.dropWhile_eq_nil_iff] at hd
    rcases List.any_eq_true.mp h with ⟨x, hx, hdig⟩
    have := hd x hx
    simp [hdig] at this
  | cons c t =>
    refine ⟨c, t, rfl, ?_⟩
    have := head?_dropWhile_eq_false (fun c => !c.isDigit) l c (by rw [hd]; rfl)
    simpa using this

/-- Helper: decomposition of a list around its first maximal digit run. -/
theorem firstDigitRun_spec (l : List Char) (h : l.any Char.isDigit = true) :
    ∃ pre post, l = pre ++ firstDigitRun l ++ post
      ∧ firstDigitRun l ≠ []
      ∧ (∀ c ∈ pre, c.isDigit = false)
      ∧ (∀ c ∈ firstDigitRun l, c.isDigit = true)
      ∧ (∀ c, post.head? = some c → c.isDigit = false) := by
  refine ⟨l.takeWhile (fun c => !c.isDigit),
          (l.dropWhile (fun c => !c.isDigit)).dropWhile Char.isDigit, ?_, ?_, ?_, ?_, ?_⟩
  · rw [firstDigitRun, List.append_assoc,
        List.takeWhile_append_dropWhile Char.isDigit (l.dropWhile (fun c => !c.isDigit)),
        List.takeWhile_append_dropWhile (fun c => !c.isDigit) l]
  · rcases dropWhile_head_digit l h with ⟨c, t, hct, hc⟩
    rw [firstDigitRun, hct]
    simp [List.takeWhile, hc]
  · intro c hc
    have := List.mem_takeWhile_imp hc
    simpa using this
  · intro c hc
    exact List.mem_takeWhile_imp hc
  · intro c hc
    exact head?_dropWhile_eq_false Char.isDigit _ c hc

/-- Helper: a string is empty iff its character list is. -/
theorem string_eq_empty_iff (s : String) : s = "" ↔ s.data = [] := by
  constructor
  · intro h; subst h; rfl
  · intro h
    cases s with
    | mk data => simp only at h; subst h; rfl

/-- Helper: digits are not whitespace. -/
theorem isDigit_not_isWhitespace (c : Char) (h : c.isDigit = true) : c.isWhitespace = false := by
  by_contra hw
  rw [Bool.not_eq_false] at hw
  have hcases : ((c = ' ' ∨ c = '\t') ∨ c = '\r') ∨ c = '\n' := by
    simpa [Char.isWhitespace] using hw
  rcases hcases with ((h1 | h1) | h1) | h1 <;> rw [h1] at h <;> exact absurd h (by decide)

/-- Helper: `pyStrip` written with Mathlib's `rdropWhile`. -/
theorem pyStrip_eq_rdropWhile (s : String) :
    pyStrip s = String.mk ((s.data.dropWhile Char.isWhitespace).rdropWhile Char.isWhitespace) := rfl

/-- Helper: the head of a non-empty prefix is the head of the longer list. -/
theorem isPrefix_get_zero {α : Type} {l₁ l₂ : List α} (h : l₁ <+: l₂) (h1 : 0 < l₁.length)
    (h2 : 0 < l₂.length) : l₂.get ⟨0, h2⟩ = l₁.get ⟨0, h1⟩ := by
  rcases h with ⟨t, rfl⟩
  cases l₁ with
  | nil => simp at h1
  | cons a as => rfl

/-- Helper: if a list has no leading `p`, neither has its `rdropWhile p`. -/
theorem dropWhile_rdropWhile {α : Type} (p : α → Bool) (x : List α) (hx : x.dropWhile p = x) :
    (x.rdropWhile p).dropWhile p = x.rdropWhile p := by
  rw [List.dropWhile_eq_self_iff]
  intro hl
  have hpre := List.rdropWhile_prefix p x
  have hx2 : 0 < x.length := lt_of_lt_of_le hl (List.IsPrefix.length_le hpre)
  rw [← isPrefix_get_zero hpre hl hx2]
  exact (List.dropWhile_eq_self_iff.mp hx) hx2

/-- Helper: `pyStrip` is idempotent. -/
theorem pyStrip_idem (s : String) : pyStrip (pyStrip s) = pyStrip s := by
  rw [pyStrip_eq_rdropWhile, pyStrip_eq_rdropWhile]
  have hd : (String.mk ((s.data.dropWhile Char.isWhitespace).rdropWhile Char.isWhitespace)).data
      = (s.data.dropWhile Char.isWhitespace).rdropWhile Char.isWhitespace := rfl
  rw [hd, dropWhile_rdropWhile Char.isWhitespace _
        (List.dropWhile_idempotent Char.isWhitespace s.data),
      List.rdropWhile_idempotent Char.isWhitespace]

/-- Helper: a string with no whitespace characters is fixed by `pyStrip`. -/
theorem pyStrip_fixed (s : String) (h : ∀ c ∈ s.data, c.isWhitespace = false) :
    pyStrip s = s := by
  rw [pyStrip_eq_rdropWhile]
  have h1 : s.data.dropWhile Char.isWhitespace = s.data := by
    rw [List.dropWhile_eq_self_iff]
    intro hl
    exact Bool.eq_false_iff.mp (h _ (List.get_mem s.data 0 hl))
  have h2 : s.data.rdropWhile Char.isWhitespace = s.data := by
    rw [List.rdropWhile_eq_self_iff]
    intro hl
    exact Bool.eq_false_iff.mp (h _ (List.getLast_mem hl))
  rw [h1, h2]

/-- Helper: `pyLower` maps only the empty string to the empty string. -/
theorem pyLower_eq_empty_iff (s : String) : pyLower s = "" ↔ s = "" := by
  rw [string_eq_empty_iff, string_eq_empty_iff]
  show (s.data.map Char.toLower) = [] ↔ _
  rw [List.map_eq_nil_iff]

/-- Shared helper: the fetcher returns the empty dict whenever the page
content is absent, empty, or fails to parse as JSON. -/
theorem fetch_empty_of_bad_content (parse : String → Option Json) (fenv : FetchEnv)
    (h : fenv.content = Option.none ∨ fenv.content = some "" ∨
      ∀ c, fenv.content = some c → parse c = Option.none) :
    fetch_openrouter_api_models parse fenv = Json.obj [] := by
  unfold fetch_openrouter_api_models
  cases hc : fenv.connectOk with
  | false => simp
  | true =>
    cases hn : fenv.navOk with
    | false => simp
    | true =>
      simp only [Bool.not_true]
      rcases h with h | h | h
      · simp [h]
      · simp [h]
      · cases hco : fenv.content with
        | none => simp
        | some c =>
          simp only []
          by_cases hce : c = ""
          · simp [hce]
          · simp [hce, h c hco]

/-- Helper: the dedup key of the record built from trimmed name `mn` and
trimmed id `mi` equals the loop's `model_key`. -/
theorem cleanRecord_key (mn mi c : String) (hne : ¬(mn = "" ∧ mi = "")) :
    (ModelRecord.mk (if mn ≠ "" then mn else mi) mi c).key
      = pyLower (if mi ≠ "" then mi else mn) := by
  unfold ModelRecord.key
  by_cases hmi : mi = ""
  · have hmn : mn ≠ "" := fun hmn => hne ⟨hmn, hmi⟩
    simp [hmi, hmn]
  · simp [hmi]

/-- Helper: the loop's `model_key` is non-empty for a surviving row. -/
theorem loop_key_ne_empty (mn mi : String) (hne : ¬(mn = "" ∧ mi = "")) :
    pyLower (if mi ≠ "" then mi else mn) ≠ "" := by
  by_cases hmi : mi = ""
  · have hmn : mn ≠ "" := fun hmn => hne ⟨hmn, hmi⟩
    simp only [hmi, ne_eq, not_true_eq_false, if_false]
    exact fun h => hmn ((pyLower_eq_empty_iff mn).mp h)
  · simp only [ne_eq, hmi, not_false_eq_true, if_true]
    exact fun h => hmi ((pyLower_eq_empty_iff mi).mp h)

/-- Helper: `dedupByKey` drops a record whose key was seen. -/
theorem dedupByKey_cons_mem (r : ModelRecord) (rs : List ModelRecord) (seen : List String)
    (h : r.key ∈ seen) : dedupByKey (r :: rs) seen = dedupByKey rs seen := by
  rw [dedupByKey, if_pos h]

/-- Helper: `dedupByKey` keeps a record whose key is new. -/
theorem dedupByKey_cons_not_mem (r : ModelRecord) (rs : List ModelRecord) (seen : List String)
    (h : r.key ∉ seen) : dedupByKey (r :: rs) seen = r :: dedupByKey rs (r.key :: seen) := by
  rw [dedupByKey, if_neg h]

/-- Helper refinement: the normalizer loop equals per-row cleanup
(`validRows`) followed by first-occurrence-wins dedup (`dedupByKey`). -/
theorem validateGo_eq (l : List RawItem) : ∀ seen : List String,
    validateGo l seen = (validRows l).map (fun v => dedupByKey v seen) := by
  induction l with
  | nil => intro seen; rfl
  | cons item rest ih =>
    intro seen
    cases item with
    | nondict =>
      show validateGo rest seen = _
      rw [ih seen]
      cases hv : validRows rest with
      | error e => simp [validRows, cleanItem, hv, Except.map]
      | ok out => simp [validRows, cleanItem, hv, Except.map]
    | dict row =>
      cases hmn : stripVal (row.model.getD (PyVal.str "")) with
      | error e => simp [validateGo, validRows, cleanItem, hmn, Except.map]
      | ok mn =>
        cases hmi : stripVal (row.id.getD (PyVal.str "")) with
        | error e => simp [validateGo, validRows, cleanItem, hmn, hmi, Except.map]
        | ok mi =>
          by_cases hboth : mn = "" ∧ mi = ""
          · simp only [validateGo, validRows, cleanItem, hmn, hmi, if_pos hboth]
            rw [ih seen]
            cases hv : validRows rest with
            | error e => simp [hv, Except.map]
            | ok out => simp [hv, Except.map]
          · have hkeq := cleanRecord_key mn mi
              (cleanContext (row.context.getD (PyVal.str ""))) hboth
            have hkne := loop_key_ne_empty mn mi hboth
            by_cases hseen : pyLower (if mi ≠ "" then mi else mn) ∈ seen
            · simp only [validateGo, validRows, cleanItem, hmn, hmi, if_neg hboth,
                if_pos (Or.inr hseen)]
              rw [ih seen]
              cases hv : validRows rest with
              | error e => simp [hv, Except.map]
              | ok out =>
                simp only [hv, Except.map]
                have hmem : (ModelRecord.mk (if mn ≠ "" then mn else mi) mi
                    (cleanContext (row.context.getD (PyVal.str "")))).key ∈ seen := by
                  rw [hkeq]; exact hseen
                rw [dedupByKey_cons_mem _ _ _ hmem]
            · have hcond : ¬(pyLower (if mi ≠ "" then mi else mn) = ""
                  ∨ pyLower (if mi ≠ "" then mi else mn) ∈ seen) := by
                rintro (h | h)
                · exact hkne h
                · exact hseen h
              simp only [validateGo, validRows, cleanItem, hmn, hmi, if_neg hboth,
                if_neg hcond]
              rw [ih (pyLower (if mi ≠ "" then mi else mn) :: seen)]
              cases hv : validRows rest with
              | error e => simp [hv, Except.map]
              | ok out =>
                simp only [hv, Except.map]
                have hnmem : (ModelRecord.mk (if mn ≠ "" then mn else mi) mi
                    (cleanContext (row.context.getD (PyVal.str "")))).key ∉ seen := by
                  rw [hkeq]; exact hseen
                rw [dedupByKey_cons_not_mem _ _ _ hnmem, hkeq]

/-- Helper: `validate_and_clean_models` as cleanup plus dedup. -/
theorem validate_eq (l : List RawItem) :
    validate_and_clean_models l = (validRows l).map (fun v => dedupByKey v []) :=
  validateGo_eq l []

/-- Helper: a record surviving `dedupByKey` is in the input and its key was
not previously seen. -/
theorem mem_dedupByKey (x : ModelRecord) :
    ∀ (v : List ModelRecord) (seen : List String),
      x ∈ dedupByKey v seen → x ∈ v ∧ x.key ∉ seen := by
  intro v
  induction v with
  | nil => intro seen h; simp [dedupByKey] at h
  | cons r rs ih =>
    intro seen h
    rw [dedupByKey] at h
    by_cases hr : r.key ∈ seen
    · rw [if_pos hr] at h
      rcases ih seen h with ⟨h1, h2⟩
      exact ⟨List.mem_cons_of_mem r h1, h2⟩
    · rw [if_neg hr] at h
      rcases List.mem_cons.mp h with rfl | h
      · exact ⟨List.mem_cons_self x rs, hr⟩
      · rcases ih (r.key :: seen) h with ⟨h1, h2⟩
        exact ⟨List.mem_cons_of_mem r h1, fun hx => h2 (List.mem_cons_of_mem r.key hx)⟩

/-- Helper: `dedupByKey` output has pairwise distinct keys. -/
theorem pairwise_dedupByKey :
    ∀ (v : List ModelRecord) (seen : List String),
      (dedupByKey v seen).Pairwise (fun a b => a.key ≠ b.key) := by
  intro v
  induction v with
  | nil => intro seen; simp [dedupByKey]
  | cons r rs ih =>
    intro seen
    rw [dedupByKey]
    by_cases hr : r.key ∈ seen
    · rw [if_pos hr]; exact ih seen
    · rw [if_neg hr]
      refine List.Pairwise.cons ?_ (ih (r.key :: seen))
      intro b hb hkey
      exact (mem_dedupByKey b rs (r.key :: seen) hb).2 (hkey ▸ List.mem_cons_self r.key seen)

/-- Helper: every record in `validRows l` comes from a row of `l` that cleans
to it. -/
theorem mem_validRows (r : ModelRecord) :
    ∀ (l : List RawItem) (v : List ModelRecord),
      validRows l = Except.ok v → r ∈ v →
      ∃ item, item ∈ l ∧ cleanItem item = Except.ok (some r) := by
  intro l
  induction l with
  | nil =>
    intro v hv hr
    rw [validRows] at hv
    cases hv
    simp at hr
  | cons item rest ih =>
    intro v hv hr
    rw [validRows] at hv
    cases hitem : cleanItem item with
    | error e => rw [hitem] at hv; cases hv
    | ok o =>
      rw [hitem] at hv
      cases hrest : validRows rest with
      | error e => rw [hrest] at hv; cases hv
      | ok out =>
        rw [hrest] at hv
        cases o with
        | none =>
          simp only at hv
          injection hv with hv2
          subst hv2
          rcases ih out hrest hr with ⟨it, hit, hcl⟩
          exact ⟨it, List.mem_cons_of_mem item hit, hcl⟩
        | some r0 =>
          simp only at hv
          injection hv with hv2
          subst hv2
          rcases List.mem_cons.mp hr with rfl | hr
          · exact ⟨item, List.mem_cons_self item rest, hitem⟩
          · rcases ih out hrest hr with ⟨it, hit, hcl⟩
            exact ⟨it, List.mem_cons_of_mem item hit, hcl⟩

/-- Helper: a row that cleans to nothing contributes nothing to `validRows`,
wherever it sits in the list. -/
theorem validRows_skip (item : RawItem) (hitem : cleanItem item = Except.ok Option.none) :
    ∀ (l₁ l₂ : List RawItem), validRows (l₁ ++ item :: l₂) = validRows (l₁ ++ l₂) := by
  intro l₁
  induction l₁ with
  | nil =>
    intro l₂
    show validRows (item :: l₂) = validRows l₂
    rw [validRows, hitem]
    cases hrest : validRows l₂ with
    | error e => rfl
    | ok out => rfl
  | cons a t ih =>
    intro l₂
    show validRows (a :: (t ++ item :: l₂)) = validRows (a :: (t ++ l₂))
    rw [validRows, validRows, ih l₂]

/-- Helper: `cleanContext` output is all digits. -/
theorem cleanContext_digits (v : PyVal) :
    ∀ c ∈ (cleanContext v).data, c.isDigit = true := by
  intro c hc
  unfold cleanContext at hc
  by_cases he : pyStrip (pyStr v) = ""
  · rw [if_pos he] at hc
    rw [string_eq_empty_iff] at he
    rw [he] at hc
    simp at hc
  · rw [if_neg he] at hc
    unfold searchDigits at hc
    by_cases hd : (pyStrip (pyStr v)).data.any Char.isDigit = true
    · rw [if_pos hd] at hc
      simp only at hc
      exact List.mem_takeWhile_imp hc
    · rw [if_neg hd] at hc
      simp at hc

/-- Helper: a string produced by `stripVal` is a fixed point of `pyStrip`. -/
theorem stripVal_fixed (v : PyVal) (s : String) (h : stripVal v = Except.ok s) :
    pyStrip s = s := by
  cases v with
  | str s0 =>
    rw [stripVal] at h
    injection h with h2
    subst h2
    exact pyStrip_idem s0
  | int n => simp [stripVal] at h
  | noneV => simp [stripVal] at h

/-- Helper: every record produced by `cleanItem` is canonical. -/
theorem canon_of_cleanItem (item : RawItem) (r : ModelRecord)
    (h : cleanItem item = Except.ok (some r)) : Canon r := by
  cases item with
  | nondict => rw [cleanItem] at h; cases h
  | dict row =>
    cases hmn : stripVal (row.model.getD (PyVal.str "")) with
    | error e => simp only [cleanItem, hmn] at h; cases h
    | ok mn =>
      cases hmi : stripVal (row.id.getD (PyVal.str "")) with
      | error e => simp only [cleanItem, hmn, hmi] at h; cases h
      | ok mi =>
        simp only [cleanItem, hmn, hmi] at h
        by_cases hboth : mn = "" ∧ mi = ""
        · rw [if_pos hboth] at h; cases h
        · rw [if_neg hboth] at h
          simp only [Except.ok.injEq, Option.some.injEq] at h
          subst h
          refine ⟨?_, ?_, stripVal_fixed _ _ hmi, cleanContext_digits _⟩
          · show pyStrip (if mn ≠ "" then mn else mi) = _
            by_cases hmn0 : mn = ""
            · simp only [hmn0, ne_eq, not_true_eq_false, if_false]
              exact stripVal_fixed _ _ hmi
            · simp only [ne_eq, hmn0, not_false_eq_true, if_true]
              exact stripVal_fixed _ _ hmn
          · show (if mn ≠ "" then mn else mi) ≠ ""
            by_cases hmn0 : mn = ""
            · have hmi0 : mi ≠ "" := fun hmi0 => hboth ⟨hmn0, hmi0⟩
              simp [hmn0, hmi0]
            · simp [hmn0]

/-- Helper inversion: a record emitted for a dict row is built from the
stripped name and id and the cleaned context of that row. -/
theorem cleanItem_inv (row : RawRow) (r : ModelRecord)
    (h : cleanItem (RawItem.dict row) = Except.ok (some r)) :
    ∃ mn mi, stripVal (row.model.getD (PyVal.str "")) = Except.ok mn
      ∧ stripVal (row.id.getD (PyVal.str "")) = Except.ok mi
      ∧ ¬(mn = "" ∧ mi = "")
      ∧ r = ⟨if mn ≠ "" then mn else mi, mi, cleanContext (row.context.getD (PyVal.str ""))⟩ := by
  cases hmn : stripVal (row.model.getD (PyVal.str "")) with
  | error e => simp only [cleanItem, hmn] at h; cases h
  | ok mn =>
    cases hmi : stripVal (row.id.getD (PyVal.str "")) with
    | error e => simp only [cleanItem, hmn, hmi] at h; cases h
    | ok mi =>
      simp only [cleanItem, hmn, hmi] at h
      by_cases hboth : mn = "" ∧ mi = ""
      · rw [if_pos hboth] at h; cases h
      · rw [if_neg hboth] at h
        simp only [Except.ok.injEq, Option.some.injEq] at h
        exact ⟨mn, mi, rfl, rfl, hboth, h.symm⟩

/-- Helper: `takeWhile` keeps a list all of whose elements satisfy the
predicate. -/
theorem takeWhile_eq_self_of_all {α : Type} (p : α → Bool) :
    ∀ (l : List α), (∀ c ∈ l, p c = true) → l.takeWhile p = l := by
  intro l
  induction l with
  | nil => intro _; rfl
  | cons a t ih =>
    intro h
    rw [List.takeWhile_cons, if_pos (h a (List.mem_cons_self a t)), ih
      (fun c hc => h c (List.mem_cons_of_mem a hc))]

/-- Helper: an all-digit string is fixed by `cleanContext` when fed back as a
string value. -/
theorem cleanContext_all_digits (s : String) (h : ∀ c ∈ s.data, c.isDigit = true) :
    cleanContext (PyVal.str s) = s := by
  have hstrip : pyStrip s = s :=
    pyStrip_fixed s (fun c hc => isDigit_not_isWhitespace c (h c hc))
  show (if pyStrip (pyStr (PyVal.str s)) = "" then pyStrip (pyStr (PyVal.str s))
    else match searchDigits (pyStrip (pyStr (PyVal.str s))) with
      | some d => d
      | Option.none => "") = s
  rw [show pyStr (PyVal.str s) = s from rfl, hstrip]
  by_cases he : s = ""
  · rw [if_pos he, he]
  · rw [if_neg he]
    have hne : s.data ≠ [] := fun hd => he ((string_eq_empty_iff s).mpr hd)
    cases hd : s.data with
    | nil => exact absurd hd hne
    | cons c cs =>
      have hany : s.data.any Char.isDigit = true :=
        List.any_eq_true.mpr ⟨c, by rw [hd]; exact List.mem_cons_self c cs,
          h c (by rw [hd]; exact List.mem_cons_self c cs)⟩
      rw [searchDigits, if_pos hany]
      have hdrop : s.data.dropWhile (fun c => !c.isDigit) = s.data := by
        rw [hd, List.dropWhile_cons]
        have : c.isDigit = true := h c (by rw [hd]; exact List.mem_cons_self c cs)
        simp [this]
      have htake : s.data.takeWhile Char.isDigit = s.data :=
        takeWhile_eq_self_of_all Char.isDigit s.data h
      show String.mk (firstDigitRun s.data) = s
      rw [firstDigitRun, hdrop, htake]

/-- Helper: canonical records with unseen, pairwise-distinct keys pass through
the normalizer loop unchanged. -/
theorem validateGo_canon :
    ∀ (out : List ModelRecord) (seen : List String),
      (∀ r ∈ out, Canon r) →
      out.Pairwise (fun a b => a.key ≠ b.key) →
      (∀ r ∈ out, r.key ∉ seen) →
      validateGo (out.map recordToItem) seen = Except.ok out := by
  intro out
  induction out with
  | nil => intro seen _ _ _; rfl
  | cons r rs ih =>
    intro seen hcanon hpw hseen
    obtain ⟨hcm, hmne, hci, hdig⟩ := hcanon r (List.mem_cons_self r rs)
    have hsm : stripVal ((some (PyVal.str r.model)).getD (PyVal.str ""))
        = Except.ok r.model := by rw [Option.getD_some, stripVal, hcm]
    have hsi : stripVal ((some (PyVal.str r.id)).getD (PyVal.str ""))
        = Except.ok r.id := by rw [Option.getD_some, stripVal, hci]
    have hboth : ¬(r.model = "" ∧ r.id = "") := fun hb => hmne hb.1
    have hkey : pyLower (if r.id ≠ "" then r.id else r.model) = r.key := rfl
    have hkne : r.key ≠ "" := by
      rw [← hkey]; exact loop_key_ne_empty r.model r.id hboth
    have hcond : ¬(pyLower (if r.id ≠ "" then r.id else r.model) = ""
        ∨ pyLower (if r.id ≠ "" then r.id else r.model) ∈ seen) := by
      rw [hkey]
      rintro (hk | hk)
      · exact hkne hk
      · exact hseen r (List.mem_cons_self r rs) hk
    have hrec : validateGo (rs.map recordToItem) (pyLower (if r.id ≠ "" then r.id
        else r.model) :: seen) = Except.ok rs := by
      rw [hkey]
      refine ih (r.key :: seen) (fun x hx => hcanon x (List.mem_cons_of_mem r hx))
        (List.Pairwise.sublist (List.sublist_cons_self r rs) hpw) ?_
      intro x hx hmem
      rcases List.mem_cons.mp hmem with hk | hk
      · exact (List.rel_of_pairwise_cons hpw hx) hk.symm
      · exact hseen x (List.mem_cons_of_mem r hx) hk
    show validateGo (RawItem.dict ⟨some (PyVal.str r.model), some (PyVal.str r.id),
        some (PyVal.str r.context)⟩ :: rs.map recordToItem) seen = _
    simp only [validateGo, hsm, hsi, if_neg hboth, if_neg hcond, hrec]
    have hctx : cleanContext ((some (PyVal.str r.context)).getD (PyVal.str ""))
        = r.context := by
      rw [Option.getD_some]
      exact cleanContext_all_digits r.context hdig
    rw [hctx, if_pos hmne]

/-- Claim C1, counterexample: on the raw rows of scenario A the normalizer
does NOT return a record with context "128000"; `re.search(r'(\d+)', "128,000")`
matches only the digits before the comma, so the claimed output is wrong. -/
theorem C1_counterexample :
    validate_and_clean_models
      [RawItem.dict ⟨some (PyVal.str "GPT-X"), some (PyVal.str "openai/gpt-x"), some (PyVal.str "128,000")⟩,
       RawItem.dict ⟨some (PyVal.str ""), some (PyVal.str "openai/gpt-x"), some (PyVal.str "")⟩]
      ≠ Except.ok [⟨"GPT-X", "openai/gpt-x", "128000"⟩] := by
  decide

/-- Claim C1, amended: on the raw rows of scenario A the normalizer returns
exactly one record — the second row is dropped because its id's dedup key
equals the first row's — and the emitted context is "128", the first maximal
digit run of "128,000" (the comma stripping happens in the page script, not in
`validate_and_clean_models`). -/
theorem C1_scenario_A :
    validate_and_clean_models
      [RawItem.dict ⟨some (PyVal.str "GPT-X"), some (PyVal.str "openai/gpt-x"), some (PyVal.str "128,000")⟩,
       RawItem.dict ⟨some (PyVal.str ""), some (PyVal.str "openai/gpt-x"), some (PyVal.str "")⟩]
      = Except.ok [⟨"GPT-X", "openai/gpt-x", "128"⟩] := by
  decide

/-- Claim C10: `validate_and_clean_models` is not total over loosely-typed
rows: a dict whose "model" key maps to an integer makes `.strip()` raise
(modelled as `Except.error`), while an integer "context" value is tolerated
via `str()` coercion and cleaned to its digits. -/
theorem C10_nonstring_field_raises :
    validate_and_clean_models [RawItem.dict ⟨some (PyVal.int 5), some (PyVal.str "x"), Option.none⟩]
      = Except.error ()
    ∧ validate_and_clean_models
        [RawItem.dict ⟨some (PyVal.str "m"), some (PyVal.str "i"), some (PyVal.int 1000)⟩]
      = Except.ok [⟨"m", "i", "1000"⟩] := by
  decide

/-- Claim C4: when the scraper returns zero records, `main` exits with code 1
without writing the record file and without ever invoking the API fetch. -/
theorem C4_zero_records_early_exit (parse : String → Option Json) (env : MainEnv)
    (h : env.scraped = []) :
    main parse env = ⟨1, false, false, false, Option.none⟩ := by
  simp [main, h]

/-- Witness for C4 at a concrete environment. -/
theorem C4_zero_records_early_exit_witness :
    main (fun _ => Option.none) ⟨[], true, true, ⟨true, true, Option.none⟩, true⟩
      = ⟨1, false, false, false, Option.none⟩ :=
  C4_zero_records_early_exit (fun _ => Option.none) ⟨[], true, true, ⟨true, true, Option.none⟩, true⟩ rfl

/-- Claim C3, counterexample: a write failure on the API payload file does not
terminate the process with exit code 1.  In this run the payload is truthy, so
the file-2 write is attempted and fails (`write2Ok = false`), yet `main`
finishes with exit code 0. -/
theorem C3_counterexample :
    jsonTruthy (fetch_openrouter_api_models
        (fun _ => some (Json.obj [("data", Json.arr [])])) ⟨true, true, some "x"⟩) = true
    ∧ (main (fun _ => some (Json.obj [("data", Json.arr [])]))
        ⟨[⟨"m", "i", ""⟩], true, true, ⟨true, true, some "x"⟩, false⟩).exitCode = 0 := by
  exact ⟨rfl, rfl⟩

/-- Claim C3, amended: a write failure on the record file
(data/openrouter-free-text-to-text.json) exits the process with code 1, but a
write failure on the API payload file (data/openrouter-models.json) is only
logged: the run continues and exits with code 0, with file 2 unwritten. -/
theorem C3_record_write_failure_exits (parse : String → Option Json) (env : MainEnv) :
    (env.write1Ok = false → (main parse env).exitCode = 1)
    ∧ (env.scraped ≠ [] → env.mkdirOk = true → env.write1Ok = true → env.write2Ok = false →
        (main parse env).exitCode = 0 ∧ (main parse env).wroteFile2 = false) := by
  obtain ⟨scraped, mkdirOk, write1Ok, fenv, write2Ok⟩ := env
  constructor
  · intro h1
    subst h1
    cases scraped with
    | nil => simp [main]
    | cons r rs => cases mkdirOk <;> simp [main]
  · intro hs hm h1 h2
    subst hm; subst h1; subst h2
    cases scraped with
    | nil => exact absurd rfl hs
    | cons r rs =>
      simp only [main, List.isEmpty_cons, Bool.not_true, Bool.not_false, if_false, if_true]
      cases jsonTruthy (fetch_openrouter_api_models parse fenv) <;> simp

/-- Witness for C3 at concrete environments: one run with a failing record
write, one with a failing payload write. -/
theorem C3_record_write_failure_exits_witness :
    (main (fun _ => Option.none) ⟨[⟨"m", "i", ""⟩], true, false, ⟨true, true, Option.none⟩, true⟩).exitCode = 1
    ∧ ((main (fun _ => some (Json.obj [("a", Json.null)]))
          ⟨[⟨"m", "i", ""⟩], true, true, ⟨true, true, some "x"⟩, false⟩).exitCode = 0
        ∧ (main (fun _ => some (Json.obj [("a", Json.null)]))
          ⟨[⟨"m", "i", ""⟩], true, true, ⟨true, true, some "x"⟩, false⟩).wroteFile2 = false) :=
  ⟨(C3_record_write_failure_exits (fun _ => Option.none)
      ⟨[⟨"m", "i", ""⟩], true, false, ⟨true, true, Option.none⟩, true⟩).1 rfl,
   (C3_record_write_failure_exits (fun _ => some (Json.obj [("a", Json.null)]))
      ⟨[⟨"m", "i", ""⟩], true, true, ⟨true, true, some "x"⟩, false⟩).2 (by decide) rfl rfl rfl⟩

/-- Claim C2, counterexample: when the fetched text is not valid JSON the
fetcher does return the empty dict, but `main` does NOT write output file 2 —
the `if api_models:` guard is falsy for the empty dict, so the write is
skipped and no API-model count is logged. -/
theorem C2_counterexample :
    fetch_openrouter_api_models (fun _ => Option.none) ⟨true, true, some "not json"⟩ = Json.obj []
    ∧ (main (fun _ => Option.none)
        ⟨[⟨"m", "i", ""⟩], true, true, ⟨true, true, some "not json"⟩, true⟩).wroteFile2 = false
    ∧ (main (fun _ => Option.none)
        ⟨[⟨"m", "i", ""⟩], true, true, ⟨true, true, some "not json"⟩, true⟩).apiCountLogged
        = Option.none := by
  exact ⟨rfl, rfl, rfl⟩

/-- Claim C2, amended: when the page text is empty or not valid JSON,
`fetch_openrouter_api_models` returns the empty object; `main` then skips the
write of output file 2 entirely (the empty dict is falsy) and logs a warning
instead of an API-model count. -/
theorem C2_invalid_json_fetch_empty (parse : String → Option Json) (env : MainEnv)
    (h : env.fetchEnv.content = Option.none ∨ env.fetchEnv.content = some "" ∨
      ∀ c, env.fetchEnv.content = some c → parse c = Option.none) :
    fetch_openrouter_api_models parse env.fetchEnv = Json.obj []
    ∧ (main parse env).wroteFile2 = false
    ∧ (main parse env).apiCountLogged = Option.none := by
  have hf := fetch_empty_of_bad_content parse env.fetchEnv h
  refine ⟨hf, ?_⟩
  obtain ⟨scraped, mkdirOk, write1Ok, fenv, write2Ok⟩ := env
  simp only at hf
  cases scraped with
  | nil => simp [main]
  | cons r rs =>
    cases mkdirOk with
    | false => simp [main]
    | true =>
      cases write1Ok with
      | false => simp [main]
      | true => simp [main, hf, jsonTruthy]

/-- Witness for C2 at a concrete environment with unparseable content. -/
theorem C2_invalid_json_fetch_empty_witness :
    fetch_openrouter_api_models (fun _ => Option.none) (⟨true, true, some "oops"⟩ : FetchEnv)
      = Json.obj []
    ∧ (main (fun _ => Option.none)
        ⟨[⟨"m", "i", ""⟩], true, true, ⟨true, true, some "oops"⟩, true⟩).wroteFile2 = false
    ∧ (main (fun _ => Option.none)
        ⟨[⟨"m", "i", ""⟩], true, true, ⟨true, true, some "oops"⟩, true⟩).apiCountLogged
        = Option.none :=
  C2_invalid_json_fetch_empty (fun _ => Option.none)
    ⟨[⟨"m", "i", ""⟩], true, true, ⟨true, true, some "oops"⟩, true⟩
    (Or.inr (Or.inr (fun _ _ => rfl)))

/-- Claim C5: the output of `validate_and_clean_models` never contains two
records with the same dedup key, and it equals first-occurrence-wins
deduplication (order of first appearance preserved) of the per-row cleaned
rows. -/
theorem C5_dedup_keys_unique (l : List RawItem) (out : List ModelRecord)
    (h : validate_and_clean_models l = Except.ok out) :
    out.Pairwise (fun a b => a.key ≠ b.key)
    ∧ ∃ v, validRows l = Except.ok v ∧ out = dedupByKey v [] := by
  rw [validate_eq] at h
  cases hv : validRows l with
  | error e => rw [hv] at h; simp [Except.map] at h
  | ok v =>
    rw [hv] at h
    simp only [Except.map] at h
    injection h with h2
    subst h2
    exact ⟨pairwise_dedupByKey v [], v, rfl, rfl⟩

/-- Witness for C5 on the scenario-A input. -/
theorem C5_dedup_keys_unique_witness :
    ([⟨"GPT-X", "openai/gpt-x", "128"⟩] : List ModelRecord).Pairwise
        (fun a b => a.key ≠ b.key)
    ∧ ∃ v, validRows
        [RawItem.dict ⟨some (PyVal.str "GPT-X"), some (PyVal.str "openai/gpt-x"),
          some (PyVal.str "128,000")⟩,
         RawItem.dict ⟨some (PyVal.str ""), some (PyVal.str "openai/gpt-x"),
          some (PyVal.str "")⟩] = Except.ok v
      ∧ [⟨"GPT-X", "openai/gpt-x", "128"⟩] = dedupByKey v [] :=
  C5_dedup_keys_unique
    [RawItem.dict ⟨some (PyVal.str "GPT-X"), some (PyVal.str "openai/gpt-x"),
      some (PyVal.str "128,000")⟩,
     RawItem.dict ⟨some (PyVal.str ""), some (PyVal.str "openai/gpt-x"),
      some (PyVal.str "")⟩]
    [⟨"GPT-X", "openai/gpt-x", "128"⟩] (by decide)

/-- Helper: every record in the normalizer's output originates from a dict row
of the input list that cleans to exactly that record. -/
theorem emitted_record_source (l : List RawItem) (out : List ModelRecord) (r : ModelRecord)
    (h : validate_and_clean_models l = Except.ok out) (hr : r ∈ out) :
    ∃ row, RawItem.dict row ∈ l ∧ cleanItem (RawItem.dict row) = Except.ok (some r) := by
  rw [validate_eq] at h
  cases hv : validRows l with
  | error e => rw [hv] at h; simp [Except.map] at h
  | ok v =>
    rw [hv] at h
    simp only [Except.map] at h
    injection h with h2
    subst h2
    have hrv := (mem_dedupByKey r v [] hr).1
    rcases mem_validRows r l v hv hrv with ⟨item, hin, hclean⟩
    cases item with
    | nondict => simp [cleanItem] at hclean
    | dict row => exact ⟨row, hin, hclean⟩

/-- Claim C6: every emitted record comes from a dict row of the input, and its
context is the first maximal digit run of the row's trimmed context string
when that string contains a digit, or empty when it contains none. -/
theorem C6_context_first_digit_run (l : List RawItem) (out : List ModelRecord)
    (r : ModelRecord) (h : validate_and_clean_models l = Except.ok out) (hr : r ∈ out) :
    ∃ row, RawItem.dict row ∈ l ∧ cleanItem (RawItem.dict row) = Except.ok (some r)
      ∧ ((pyStrip (pyStr (row.context.getD (PyVal.str "")))).data.any Char.isDigit = true →
          ∃ pre post,
            (pyStrip (pyStr (row.context.getD (PyVal.str "")))).data
              = pre ++ r.context.data ++ post
            ∧ r.context ≠ ""
            ∧ (∀ c ∈ pre, c.isDigit = false)
            ∧ (∀ c ∈ r.context.data, c.isDigit = true)
            ∧ (∀ c, post.head? = some c → c.isDigit = false))
      ∧ ((pyStrip (pyStr (row.context.getD (PyVal.str "")))).data.any Char.isDigit = false →
          r.context = "") := by
  rcases emitted_record_source l out r h hr with ⟨row, hrow, hclean⟩
  rcases cleanItem_inv row r hclean with ⟨mn, mi, _, _, _, hrec⟩
  have hctx : r.context = cleanContext (row.context.getD (PyVal.str "")) := by
    rw [hrec]
  refine ⟨row, hrow, hclean, ?_, ?_⟩
  · intro hany
    have hne : pyStrip (pyStr (row.context.getD (PyVal.str ""))) ≠ "" := by
      intro he
      rw [string_eq_empty_iff] at he
      rw [he] at hany
      simp at hany
    rcases firstDigitRun_spec (pyStrip (pyStr (row.context.getD (PyVal.str "")))).data hany
      with ⟨pre, post, hdec, hrun, hpre, hdigits, hpost⟩
    have hceq : r.context
        = String.mk (firstDigitRun (pyStrip (pyStr (row.context.getD (PyVal.str "")))).data) := by
      rw [hctx]
      show (if pyStrip (pyStr (row.context.getD (PyVal.str ""))) = ""
        then pyStrip (pyStr (row.context.getD (PyVal.str "")))
        else match searchDigits (pyStrip (pyStr (row.context.getD (PyVal.str "")))) with
          | some d => d
          | Option.none => "") = _
      rw [if_neg hne, searchDigits, if_pos hany]
    refine ⟨pre, post, ?_, ?_, hpre, ?_, hpost⟩
    · rw [hceq]; exact hdec
    · rw [hceq]
      intro hmk
      rw [string_eq_empty_iff] at hmk
      exact hrun hmk
    · rw [hceq]; exact hdigits
  · intro hnone
    rw [hctx]
    show (if pyStrip (pyStr (row.context.getD (PyVal.str ""))) = ""
      then pyStrip (pyStr (row.context.getD (PyVal.str "")))
      else match searchDigits (pyStrip (pyStr (row.context.getD (PyVal.str "")))) with
        | some d => d
        | Option.none => "") = ""
    by_cases he : pyStrip (pyStr (row.context.getD (PyVal.str ""))) = ""
    · rw [if_pos he, he]
    · rw [if_neg he, searchDigits, if_neg (by rw [hnone]; exact Bool.false_ne_true)]

/-- Witness for C6 on a single row whose context " 42k " trims to "42k" and
cleans to "42". -/
theorem C6_context_first_digit_run_witness :
    ∃ row, RawItem.dict row
        ∈ [RawItem.dict ⟨some (PyVal.str "M"), some (PyVal.str "id1"), some (PyVal.str " 42k ")⟩]
      ∧ cleanItem (RawItem.dict row)
          = Except.ok (some (⟨"M", "id1", "42"⟩ : ModelRecord))
      ∧ ((pyStrip (pyStr (row.context.getD (PyVal.str "")))).data.any Char.isDigit = true →
          ∃ pre post,
            (pyStrip (pyStr (row.context.getD (PyVal.str "")))).data
              = pre ++ (⟨"M", "id1", "42"⟩ : ModelRecord).context.data ++ post
            ∧ (⟨"M", "id1", "42"⟩ : ModelRecord).context ≠ ""
            ∧ (∀ c ∈ pre, c.isDigit = false)
            ∧ (∀ c ∈ (⟨"M", "id1", "42"⟩ : ModelRecord).context.data, c.isDigit = true)
            ∧ (∀ c, post.head? = some c → c.isDigit = false))
      ∧ ((pyStrip (pyStr (row.context.getD (PyVal.str "")))).data.any Char.isDigit = false →
          (⟨"M", "id1", "42"⟩ : ModelRecord).context = "") :=
  C6_context_first_digit_run
    [RawItem.dict ⟨some (PyVal.str "M"), some (PyVal.str "id1"), some (PyVal.str " 42k ")⟩]
    [⟨"M", "id1", "42"⟩] ⟨"M", "id1", "42"⟩ (by decide) (by decide)

/-- Claim C7: a raw row whose model and id both trim to empty contributes no
record wherever it occurs, and in particular the single row
`{model:"", id:"", context:"1000"}` normalizes to the empty list. -/
theorem C7_empty_row_dropped :
    (∀ (row : RawRow) (l₁ l₂ : List RawItem),
        stripVal (row.model.getD (PyVal.str "")) = Except.ok "" →
        stripVal (row.id.getD (PyVal.str "")) = Except.ok "" →
        validate_and_clean_models (l₁ ++ RawItem.dict row :: l₂)
          = validate_and_clean_models (l₁ ++ l₂))
    ∧ validate_and_clean_models
        [RawItem.dict ⟨some (PyVal.str ""), some (PyVal.str ""), some (PyVal.str "1000")⟩]
      = Except.ok [] := by
  constructor
  · intro row l₁ l₂ hm hi
    have hclean : cleanItem (RawItem.dict row) = Except.ok Option.none := by
      simp [cleanItem, hm, hi]
    rw [validate_eq, validate_eq, validRows_skip _ hclean l₁ l₂]
  · decide

/-- Witness for C7: dropping a whitespace-only row from a two-row list. -/
theorem C7_empty_row_dropped_witness :
    validate_and_clean_models
      ([RawItem.dict ⟨some (PyVal.str "A"), some (PyVal.str "a"), Option.none⟩]
        ++ RawItem.dict ⟨some (PyVal.str "  "), some (PyVal.str ""), some (PyVal.str "5")⟩ :: [])
      = validate_and_clean_models
        ([RawItem.dict ⟨some (PyVal.str "A"), some (PyVal.str "a"), Option.none⟩] ++ []) :=
  C7_empty_row_dropped.1
    ⟨some (PyVal.str "  "), some (PyVal.str ""), some (PyVal.str "5")⟩
    [RawItem.dict ⟨some (PyVal.str "A"), some (PyVal.str "a"), Option.none⟩] []
    (by decide) (by decide)

/-- Claim C8: the normalizer is idempotent — feeding its output back (each
record as a string-valued dict row) reproduces the output unchanged. -/
theorem C8_idempotent (l : List RawItem) (out : List ModelRecord)
    (h : validate_and_clean_models l = Except.ok out) :
    validate_and_clean_models (out.map recordToItem) = Except.ok out := by
  have hcanon : ∀ r ∈ out, Canon r := by
    intro r hr
    rcases emitted_record_source l out r h hr with ⟨row, _, hclean⟩
    exact canon_of_cleanItem _ r hclean
  have hpw : out.Pairwise (fun a b => a.key ≠ b.key) := by
    rw [validate_eq] at h
    cases hv : validRows l with
    | error e => rw [hv] at h; simp [Except.map] at h
    | ok v =>
      rw [hv] at h
      simp only [Except.map] at h
      injection h with h2
      subst h2
      exact pairwise_dedupByKey v []
  exact validateGo_canon out [] hcanon hpw (fun r _ hmem => (List.not_mem_nil r.key) hmem)

/-- Witness for C8 on the scenario-A output. -/
theorem C8_idempotent_witness :
    validate_and_clean_models
      (([⟨"GPT-X", "openai/gpt-x", "128"⟩] : List ModelRecord).map recordToItem)
      = Except.ok [⟨"GPT-X", "openai/gpt-x", "128"⟩] :=
  C8_idempotent
    [RawItem.dict ⟨some (PyVal.str "GPT-X"), some (PyVal.str "openai/gpt-x"),
      some (PyVal.str "128,000")⟩,
     RawItem.dict ⟨some (PyVal.str ""), some (PyVal.str "openai/gpt-x"),
      some (PyVal.str "")⟩]
    [⟨"GPT-X", "openai/gpt-x", "128"⟩] (by decide)

/-- Claim C9: every emitted record has a non-empty model equal to the trimmed
model name when that is non-empty and to the trimmed id otherwise, its context
is all digits (possibly empty), and non-dict input elements contribute no
record. -/
theorem C9_record_invariants (l : List RawItem) (out : List ModelRecord)
    (h : validate_and_clean_models l = Except.ok out) :
    (∀ r ∈ out, r.model ≠ ""
      ∧ (∀ c ∈ r.context.data, c.isDigit = true)
      ∧ ∃ row mn mi, RawItem.dict row ∈ l
          ∧ stripVal (row.model.getD (PyVal.str "")) = Except.ok mn
          ∧ stripVal (row.id.getD (PyVal.str "")) = Except.ok mi
          ∧ r.model = (if mn ≠ "" then mn else mi) ∧ r.id = mi)
    ∧ ∀ (l₁ l₂ : List RawItem), l = l₁ ++ RawItem.nondict :: l₂ →
        validate_and_clean_models (l₁ ++ l₂) = Except.ok out := by
  constructor
  · intro r hr
    rcases emitted_record_source l out r h hr with ⟨row, hrow, hclean⟩
    obtain ⟨_, hmne, _, hdig⟩ := canon_of_cleanItem _ r hclean
    rcases cleanItem_inv row r hclean with ⟨mn, mi, hm, hi, _, hrec⟩
    refine ⟨hmne, hdig, row, mn, mi, hrow, hm, hi, ?_, ?_⟩
    · rw [hrec]
    · rw [hrec]
  · intro l₁ l₂ hl
    subst hl
    rw [validate_eq] at h
    rw [validate_eq, ← validRows_skip RawItem.nondict rfl l₁ l₂]
    exact h

/-- Witness for C9 on a list with one dict row and one non-dict element. -/
theorem C9_record_invariants_witness :
    ((⟨"A", "a/b", "9"⟩ : ModelRecord).model ≠ ""
      ∧ (∀ c ∈ (⟨"A", "a/b", "9"⟩ : ModelRecord).context.data, c.isDigit = true)
      ∧ ∃ row mn mi, RawItem.dict row
            ∈ [RawItem.dict ⟨some (PyVal.str "A"), some (PyVal.str "a/b"),
                some (PyVal.str "9")⟩, RawItem.nondict]
          ∧ stripVal (row.model.getD (PyVal.str "")) = Except.ok mn
          ∧ stripVal (row.id.getD (PyVal.str "")) = Except.ok mi
          ∧ (⟨"A", "a/b", "9"⟩ : ModelRecord).model = (if mn ≠ "" then mn else mi)
          ∧ (⟨"A", "a/b", "9"⟩ : ModelRecord).id = mi)
    ∧ validate_and_clean_models
        ([RawItem.dict ⟨some (PyVal.str "A"), some (PyVal.str "a/b"), some (PyVal.str "9")⟩]
          ++ [])
      = Except.ok [⟨"A", "a/b", "9"⟩] :=
  ⟨(C9_record_invariants
      [RawItem.dict ⟨some (PyVal.str "A"), some (PyVal.str "a/b"), some (PyVal.str "9")⟩,
       RawItem.nondict]
      [⟨"A", "a/b", "9"⟩] (by decide)).1 ⟨"A", "a/b", "9"⟩ (by decide),
   (C9_record_invariants
      [RawItem.dict ⟨some (PyVal.str "A"), some (PyVal.str "a/b"), some (PyVal.str "9")⟩,
       RawItem.nondict]
      [⟨"A", "a/b", "9"⟩] (by decide)).2
     [RawItem.dict ⟨some (PyVal.str "A"), some (PyVal.str "a/b"), some (PyVal.str "9")⟩]
     [] rfl⟩

end OpenRouterFree
